import Mathlib

/-!
Shallow embedding of the booking core of `src/main.py` (a FastAPI service
backed by two CSV files, `reservations.csv` and `holidays.csv`).

The two CSV files are the only mutable state; every handler reads the whole
file, computes, and (on success) rewrites the whole file.  We model that
state as a `State` record holding the parsed reservation rows and the list
of holiday dates, and each HTTP handler as a pure function from request
data and `State` to an outcome together with the state it leaves behind.
`HTTPException` responses are modelled as error constructors of the outcome
types; a handler that raises never calls the write functions, so it returns
the input state unchanged.

Nondeterministic inputs of the source (`uuid4()` for the fresh id,
`datetime.now()` for the timestamp) are passed in as explicit parameters.
-/

namespace Booking

/-- One record of `reservations.csv`: fields `id, date, time, name, phone,
menu, memo, created_at, status` in the order the source writes them. -/
structure Row where
  id : String
  date : String
  time : String
  name : String
  phone : String
  menu : String
  memo : String
  created_at : String
  status : String
deriving Repr, DecidableEq

/-- The whole mutable state of the service: the parsed contents of
`reservations.csv` (`rows`) and of `holidays.csv` (`holidays`). -/
structure State where
  rows : List Row
  holidays : List String
deriving Repr, DecidableEq

/-- The state of a fresh deployment: both CSV files hold only their header. -/
def initState : State := { rows := [], holidays := [] }

/-- `TIME_SLOTS` of `src/main.py` (lines 44-48): the fixed slot catalog. -/
def TIME_SLOTS : List String :=
  ["10:00", "11:00", "12:00", "13:00", "14:00", "15:00", "16:00", "17:00"]

/-- The per-row test of the conflict loop in `reserve` (lines 166-171):
the row is for this date and time and still has status `reserved`. -/
def isActiveFor (date time : String) (r : Row) : Bool :=
  r.date == date && r.time == time && r.status == "reserved"

/-- Whether some row of `rows` is an active reservation for `(date, time)`;
this is what the `for r in rows: if ...` loop of `reserve` detects. -/
def findActive (date time : String) (rows : List Row) : Bool :=
  rows.any (isActiveFor date time)

/-- The set comprehension of `get_availability` (lines 135-139): the times
of rows whose date matches and whose status is `reserved`.  Membership in
the resulting list is what the Python set membership test observes. -/
def reservedTimes (date : String) (rows : List Row) : List String :=
  rows.filterMap fun r =>
    if r.date == date && r.status == "reserved" then some r.time else none

/-- Handler `get_availability` (lines 120-148).  If the date is a holiday,
every slot reports `holiday` without the reservation file being read;
otherwise each catalog slot reports `reserved` or `available` according to
`reservedTimes`.  A GET handler: it never writes, so it returns no state. -/
def get_availability (date : String) (st : State) : List (String × String) :=
  if date ∈ st.holidays then
    TIME_SLOTS.map fun t => (t, "holiday")
  else
    TIME_SLOTS.map fun t =>
      (t, if t ∈ reservedTimes date st.rows then "reserved" else "available")

/-- Body of `ReserveRequest` (lines 95-101): `memo` is optional. -/
structure ReserveReq where
  date : String
  time : String
  name : String
  phone : String
  menu : String
  memo : Option String
deriving Repr, DecidableEq

/-- Outcome of the `reserve` handler: the three `HTTPException` branches
(invalid slot, holiday, conflict) or success carrying the reservation id. -/
inductive ReserveResult where
  | invalidSlot
  | closed
  | conflict
  | ok (rid : String)
deriving Repr, DecidableEq

/-- The `new_row` dict built by `reserve` (lines 177-187): `rid` is the
fresh uuid, `now` the formatted timestamp, `memo or ""` collapses an absent
memo to the empty string, and the status starts as `reserved`. -/
def newRow (q : ReserveReq) (now rid : String) : Row :=
  { id := rid, date := q.date, time := q.time, name := q.name,
    phone := q.phone, menu := q.menu, memo := q.memo.getD "",
    created_at := now, status := "reserved" }

/-- The computation a single `reserve` call performs on the file contents it
read (lines 157-190): validate the slot, then the holiday list, then scan
for a conflict; only on success does the row list it will write back differ
from the one it read. -/
def reserveDecision (q : ReserveReq) (now rid : String)
    (rows : List Row) (holidays : List String) : ReserveResult × List Row :=
  if q.time ∉ TIME_SLOTS then (.invalidSlot, rows)
  else if q.date ∈ holidays then (.closed, rows)
  else if findActive q.date q.time rows then (.conflict, rows)
  else (.ok rid, rows ++ [newRow q now rid])

/-- Handler `reserve` (lines 155-192): read the files, run the decision,
write the resulting rows back (an erroring branch raises before the write,
leaving the state unchanged — `reserveDecision` returns the rows it read). -/
def reserve (q : ReserveReq) (now rid : String) (st : State) :
    ReserveResult × State :=
  let d := reserveDecision q now rid st.rows st.holidays
  (d.1, { st with rows := d.2 })

/-- Outcome of the `cancel` handler: 404, the already-cancelled 400, or ok. -/
inductive CancelResult where
  | notFound
  | alreadyCancelled
  | ok
deriving Repr, DecidableEq

/-- Result of the cancellation loop over the row list. -/
inductive CancelScan where
  | notFound
  | already
  | done (rows : List Row)
deriving Repr, DecidableEq

/-- The `for r in rows` loop of `cancel` (lines 204-210): find the first
row whose id matches; if its status is already `cancelled` raise, otherwise
set its status to `cancelled` and stop (`break`). -/
def cancelScan (rid : String) : List Row → CancelScan
  | [] => .notFound
  | r :: rest =>
    if r.id == rid then
      if r.status == "cancelled" then .already
      else .done ({ r with status := "cancelled" } :: rest)
    else
      match cancelScan rid rest with
      | .notFound => .notFound
      | .already => .already
      | .done rows => .done (r :: rows)

/-- Handler `cancel` (lines 199-216): run the loop; on `NotFound` or the
already-cancelled error the handler raises before `write_reservations`, so
the state is unchanged; otherwise the mutated row list is written back. -/
def cancel (rid : String) (st : State) : CancelResult × State :=
  match cancelScan rid st.rows with
  | .notFound => (.notFound, st)
  | .already => (.alreadyCancelled, st)
  | .done rows => (.ok, { st with rows := rows })

/-- Handler `list_reservations` (lines 223-228): `if date:` is falsy for
both `None` and the empty string, in which case no filter is applied. -/
def list_reservations (date : Option String) (st : State) : List Row :=
  match date with
  | none => st.rows
  | some d => if d = "" then st.rows else st.rows.filter fun r => r.date == d

/-- Outcome of the holiday add/remove handlers. -/
inductive HolidayResult where
  | duplicate
  | notFound
  | ok
deriving Repr, DecidableEq

/-- Handler `add_holiday` (lines 240-247).  `HolidayAdd` (lines 108-109)
carries only a `date` — there is no slot field — so a closure always covers
the whole day.  A date already present is rejected as a duplicate. -/
def add_holiday (date : String) (st : State) : HolidayResult × State :=
  if date ∈ st.holidays then (.duplicate, st)
  else (.ok, { st with holidays := st.holidays ++ [date] })

/-- Handler `remove_holiday` (lines 250-257): 404 when absent, otherwise
the date is filtered out of the holiday list. -/
def remove_holiday (date : String) (st : State) : HolidayResult × State :=
  if date ∉ st.holidays then (.notFound, st)
  else (.ok, { st with holidays := st.holidays.filter fun d => d ≠ date })

/-- The closure test the handlers actually perform: `data.date in holidays`
(lines 125 and 161).  The slot argument is ignored because the registry of
`src/main.py` records whole days only. -/
def isClosed (date _slot : String) (st : State) : Bool :=
  decide (date ∈ st.holidays)

/-- One state-changing request to the service; `get_availability`,
`list_reservations` and `get_holidays` are GET handlers that never write,
so they appear here as operations that return the state unchanged. -/
inductive Op where
  | reserveOp (q : ReserveReq) (now rid : String)
  | cancelOp (rid : String)
  | addHolidayOp (date : String)
  | removeHolidayOp (date : String)
  | availabilityOp (date : String)
  | listOp (date : Option String)
deriving Repr, DecidableEq

/-- The state left behind by one request. -/
def applyOp (op : Op) (st : State) : State :=
  match op with
  | .reserveOp q now rid => (reserve q now rid st).2
  | .cancelOp rid => (cancel rid st).2
  | .addHolidayOp d => (add_holiday d st).2
  | .removeHolidayOp d => (remove_holiday d st).2
  | .availabilityOp _ => st
  | .listOp _ => st

/-- States reachable from a fresh deployment by a sequence of requests. -/
inductive Reachable : State → Prop where
  | init : Reachable initState
  | step (op : Op) {st : State} : Reachable st → Reachable (applyOp op st)

/-- Number of active (status `reserved`) rows for one `(date, time)` pair. -/
def activeCount (date time : String) (rows : List Row) : Nat :=
  (rows.filter (isActiveFor date time)).length

/-- The central invariant: at most one active reservation per pair. -/
def AtMostOneActive (st : State) : Prop :=
  ∀ date time, activeCount date time st.rows ≤ 1

/-- The per-slot status as §4.4 of the spec describes it: `holiday` when
the date/slot is closed, else `reserved` when an active reservation exists,
else `available`.  Stated from the spec's words, to be compared with
`get_availability` as translated from the code. -/
def slotStatus (date time : String) (st : State) : String :=
  if isClosed date time st then "holiday"
  else if findActive date time st.rows then "reserved"
  else "available"

/-- How a record moves in one step: the id never changes and the status is
either untouched or flips from `reserved` to `cancelled`. -/
def statusStep (old new : Row) : Prop :=
  new.id = old.id ∧
    (new.status = old.status ∨ (old.status = "reserved" ∧ new.status = "cancelled"))

/-- A concurrent schedule of two `reserve` calls in which both handler
threads run `read_reservations`/`read_holidays` before either reaches
`write_reservations` (the handlers are synchronous `def`s served from a
thread pool, and the source takes no lock).  The first thread then writes
its row list and the second thread's write replaces the whole file. -/
def raceBothRead (q1 q2 : ReserveReq) (now1 rid1 now2 rid2 : String)
    (st : State) : ReserveResult × ReserveResult × State :=
  let d1 := reserveDecision q1 now1 rid1 st.rows st.holidays
  let d2 := reserveDecision q2 now2 rid2 st.rows st.holidays
  (d1.1, d2.1, { st with rows := d2.2 })

section HelperLemmas

theorem statusStep_refl (r : Row) : statusStep r r := ⟨rfl, Or.inl rfl⟩

theorem mem_reservedTimes (date t : String) (rows : List Row) :
    t ∈ reservedTimes date rows ↔ findActive date t rows = true := by
  simp only [reservedTimes, findActive, isActiveFor, List.mem_filterMap,
    List.any_eq_true, Bool.and_eq_true, beq_iff_eq]
  constructor
  · rintro ⟨r, hr, hEq⟩
    split at hEq
    · next hc => exact ⟨r, hr, ⟨hc.1, Option.some.inj hEq⟩, hc.2⟩
    · exact absurd hEq (by simp)
  · rintro ⟨r, hr, ⟨hd, ht⟩, hs⟩
    exact ⟨r, hr, by simp [hd, hs, ht]⟩

theorem findActive_eq_false_iff (date t : String) (rows : List Row) :
    findActive date t rows = false ↔ ∀ r ∈ rows, isActiveFor date t r = false := by
  simp [findActive, List.any_eq_true]

theorem activeCount_append (d t : String) (l1 l2 : List Row) :
    activeCount d t (l1 ++ l2) = activeCount d t l1 + activeCount d t l2 := by
  simp [activeCount, List.filter_append]

theorem activeCount_eq_zero (d t : String) (rows : List Row)
    (h : findActive d t rows = false) : activeCount d t rows = 0 := by
  simp only [activeCount, List.length_eq_zero, List.filter_eq_nil_iff]
  intro r hr
  simp [(findActive_eq_false_iff d t rows).mp h r hr]

theorem isActiveFor_newRow (d t : String) (q : ReserveReq) (now rid : String) :
    isActiveFor d t (newRow q now rid) = (q.date == d && q.time == t) := by
  simp [isActiveFor, newRow]

theorem reserve_invalid (q : ReserveReq) (now rid : String) (st : State)
    (h : q.time ∉ TIME_SLOTS) : reserve q now rid st = (.invalidSlot, st) := by
  simp [reserve, reserveDecision, h]

theorem reserve_closed (q : ReserveReq) (now rid : String) (st : State)
    (h1 : q.time ∈ TIME_SLOTS) (h2 : q.date ∈ st.holidays) :
    reserve q now rid st = (.closed, st) := by
  simp [reserve, reserveDecision, h1, h2]

theorem reserve_conflict (q : ReserveReq) (now rid : String) (st : State)
    (h1 : q.time ∈ TIME_SLOTS) (h2 : q.date ∉ st.holidays)
    (h3 : findActive q.date q.time st.rows = true) :
    reserve q now rid st = (.conflict, st) := by
  simp [reserve, reserveDecision, h1, h2, h3]

theorem reserve_success (q : ReserveReq) (now rid : String) (st : State)
    (h1 : q.time ∈ TIME_SLOTS) (h2 : q.date ∉ st.holidays)
    (h3 : findActive q.date q.time st.rows = false) :
    reserve q now rid st =
      (.ok rid, { st with rows := st.rows ++ [newRow q now rid] }) := by
  simp [reserve, reserveDecision, h1, h2, h3]

theorem reserve_ok_inv (q : ReserveReq) (now rid : String) (st : State)
    (o : String) (h : (reserve q now rid st).1 = .ok o) :
    q.time ∈ TIME_SLOTS ∧ q.date ∉ st.holidays ∧
      findActive q.date q.time st.rows = false ∧ o = rid := by
  by_cases h1 : q.time ∈ TIME_SLOTS
  · by_cases h2 : q.date ∈ st.holidays
    · rw [reserve_closed q now rid st h1 h2] at h; exact absurd h (by simp)
    · by_cases h3 : findActive q.date q.time st.rows = true
      · rw [reserve_conflict q now rid st h1 h2 h3] at h; exact absurd h (by simp)
      · rw [reserve_success q now rid st h1 h2 (by simpa using h3)] at h
        exact ⟨h1, h2, by simpa using h3, by simpa using h.symm⟩
  · rw [reserve_invalid q now rid st h1] at h; exact absurd h (by simp)

theorem cancelScan_eq_notFound (rid : String) (rows : List Row)
    (h : ∀ x ∈ rows, x.id ≠ rid) : cancelScan rid rows = .notFound := by
  induction rows with
  | nil => rfl
  | cons r rest ih =>
    have h1 : (r.id == rid) = false := by simpa using h r (by simp)
    rw [cancelScan, if_neg (by simp [h1]), ih fun y hy => h y (by simp [hy])]

theorem cancelScan_eq_already (rid : String) (l1 : List Row) (r : Row)
    (l2 : List Row) (hl1 : ∀ x ∈ l1, x.id ≠ rid) (hr : r.id = rid)
    (hs : r.status = "cancelled") :
    cancelScan rid (l1 ++ r :: l2) = .already := by
  induction l1 with
  | nil => simp [cancelScan, hr, hs]
  | cons x xs ih =>
    have hx : (x.id == rid) = false := by simpa using hl1 x (by simp)
    rw [List.cons_append, cancelScan, if_neg (by simp [hx]),
      ih fun y hy => hl1 y (by simp [hy])]

theorem cancelScan_eq_done (rid : String) (l1 : List Row) (r : Row)
    (l2 : List Row) (hl1 : ∀ x ∈ l1, x.id ≠ rid) (hr : r.id = rid)
    (hs : r.status ≠ "cancelled") :
    cancelScan rid (l1 ++ r :: l2) =
      .done (l1 ++ { r with status := "cancelled" } :: l2) := by
  induction l1 with
  | nil => simp [cancelScan, hr, hs]
  | cons x xs ih =>
    have hx : (x.id == rid) = false := by simpa using hl1 x (by simp)
    rw [List.cons_append, cancelScan, if_neg (by simp [hx]),
      ih fun y hy => hl1 y (by simp [hy]), List.cons_append]

theorem cancelScan_done_shape (rid : String) (rows rows' : List Row)
    (h : cancelScan rid rows = .done rows') :
    ∃ l1 r l2, rows = l1 ++ r :: l2 ∧ (∀ x ∈ l1, x.id ≠ rid) ∧ r.id = rid ∧
      r.status ≠ "cancelled" ∧
      rows' = l1 ++ { r with status := "cancelled" } :: l2 := by
  induction rows generalizing rows' with
  | nil => exact absurd h (by simp [cancelScan])
  | cons r rest ih =>
    rw [cancelScan] at h
    by_cases hid : (r.id == rid) = true
    · rw [if_pos hid] at h
      by_cases hst : (r.status == "cancelled") = true
      · rw [if_pos hst] at h; exact absurd h (by simp)
      · rw [if_neg hst] at h
        have hrows : ({ r with status := "cancelled" } :: rest) = rows' := by
          injection h
        exact ⟨[], r, rest, by simp, by simp, by simpa using hid,
          by simpa using hst, hrows.symm⟩
    · rw [if_neg hid] at h
      cases hrec : cancelScan rid rest with
      | notFound => rw [hrec] at h; exact absurd h (by simp)
      | already => rw [hrec] at h; exact absurd h (by simp)
      | done rows0 =>
        rw [hrec] at h
        have hrows : r :: rows0 = rows' := by injection h
        obtain ⟨l1, rr, l2, hEq, hfst, hid2, hst2, hrw⟩ := ih rows0 hrec
        refine ⟨r :: l1, rr, l2, by simp [hEq], ?_, hid2, hst2, ?_⟩
        · intro x hx
          rcases List.mem_cons.mp hx with rfl | hx
          · simpa using hid
          · exact hfst x hx
        · rw [← hrows, hrw]; simp

theorem cancel_notFound (rid : String) (st : State)
    (h : ∀ x ∈ st.rows, x.id ≠ rid) : cancel rid st = (.notFound, st) := by
  simp [cancel, cancelScan_eq_notFound rid st.rows h]

theorem cancel_already (rid : String) (st : State) (l1 : List Row) (r : Row)
    (l2 : List Row) (hsplit : st.rows = l1 ++ r :: l2)
    (hl1 : ∀ x ∈ l1, x.id ≠ rid) (hr : r.id = rid)
    (hs : r.status = "cancelled") : cancel rid st = (.alreadyCancelled, st) := by
  simp [cancel, hsplit, cancelScan_eq_already rid l1 r l2 hl1 hr hs]

theorem cancel_success (rid : String) (st : State) (l1 : List Row) (r : Row)
    (l2 : List Row) (hsplit : st.rows = l1 ++ r :: l2)
    (hl1 : ∀ x ∈ l1, x.id ≠ rid) (hr : r.id = rid)
    (hs : r.status ≠ "cancelled") :
    cancel rid st =
      (.ok, { st with rows := l1 ++ { r with status := "cancelled" } :: l2 }) := by
  simp [cancel, hsplit, cancelScan_eq_done rid l1 r l2 hl1 hr hs]

theorem add_holiday_rows (d : String) (st : State) :
    (add_holiday d st).2.rows = st.rows := by
  unfold add_holiday; split <;> rfl

theorem remove_holiday_rows (d : String) (st : State) :
    (remove_holiday d st).2.rows = st.rows := by
  unfold remove_holiday; split <;> rfl

theorem reserve_holidays (q : ReserveReq) (now rid : String) (st : State) :
    (reserve q now rid st).2.holidays = st.holidays := rfl

theorem cancel_holidays (rid : String) (st : State) :
    (cancel rid st).2.holidays = st.holidays := by
  unfold cancel; cases cancelScan rid st.rows <;> rfl

theorem activeCount_singleton_newRow (d t : String) (q : ReserveReq)
    (now rid : String) :
    activeCount d t [newRow q now rid] =
      if q.date = d ∧ q.time = t then 1 else 0 := by
  by_cases hdt : q.date = d ∧ q.time = t
  · simp [activeCount, List.filter_cons, isActiveFor_newRow, hdt.1, hdt.2, hdt]
  · have hfalse : (q.date == d && q.time == t) = false := by
      rcases not_and_or.mp hdt with hne | hne <;> simp [hne]
    simp [activeCount, List.filter_cons, isActiveFor_newRow, hfalse, hdt]

theorem isActiveFor_cancelled (d t : String) (r : Row) :
    isActiveFor d t ({ r with status := "cancelled" }) = false := by
  have hlit : (("cancelled" : String) == "reserved") = false := by decide
  simp [isActiveFor, hlit]

theorem activeCount_cancelScan_le (d t rid : String) (rows rows' : List Row)
    (h : cancelScan rid rows = .done rows') :
    activeCount d t rows' ≤ activeCount d t rows := by
  obtain ⟨l1, r, l2, rfl, -, -, -, rfl⟩ := cancelScan_done_shape rid rows rows' h
  rw [activeCount_append, activeCount_append]
  have hc := isActiveFor_cancelled d t r
  simp only [activeCount, List.filter_cons, hc, Bool.false_eq_true, if_false]
  split <;> simp

theorem applyOp_atMostOne (op : Op) (st : State) (h : AtMostOneActive st) :
    AtMostOneActive (applyOp op st) := by
  cases op with
  | reserveOp q now rid =>
    by_cases h1 : q.time ∈ TIME_SLOTS
    · by_cases h2 : q.date ∈ st.holidays
      · simpa [applyOp, reserve_closed q now rid st h1 h2] using h
      · by_cases h3 : findActive q.date q.time st.rows = true
        · simpa [applyOp, reserve_conflict q now rid st h1 h2 h3] using h
        · have h3' : findActive q.date q.time st.rows = false := by simpa using h3
          intro d t
          simp only [applyOp, reserve_success q now rid st h1 h2 h3']
          rw [activeCount_append, activeCount_singleton_newRow]
          by_cases hdt : q.date = d ∧ q.time = t
          · have h0 : activeCount d t st.rows = 0 := by
              apply activeCount_eq_zero
              rw [← hdt.1, ← hdt.2]; exact h3'
            simp [hdt, h0]
          · have hle := h d t
            simp only [hdt, if_false]
            omega
    · simpa [applyOp, reserve_invalid q now rid st h1] using h
  | cancelOp rid =>
    intro d t
    cases hscan : cancelScan rid st.rows with
    | notFound => simpa [applyOp, cancel, hscan] using h d t
    | already => simpa [applyOp, cancel, hscan] using h d t
    | done rows' =>
      have hle := activeCount_cancelScan_le d t rid st.rows rows' hscan
      have h2 := h d t
      simp only [applyOp, cancel, hscan]
      omega
  | addHolidayOp dd =>
    intro d t
    rw [show (applyOp (.addHolidayOp dd) st).rows = st.rows from
      add_holiday_rows dd st]
    exact h d t
  | removeHolidayOp dd =>
    intro d t
    rw [show (applyOp (.removeHolidayOp dd) st).rows = st.rows from
      remove_holiday_rows dd st]
    exact h d t
  | availabilityOp dd => exact h
  | listOp dd => exact h

end HelperLemmas

/-- C1: for every reachable state of the store, each `(date, slot)` pair has
at most one reservation with status `reserved`, and every operation of the
core (reserve, cancel, holiday add/remove, availability, list) preserves
this invariant. -/
theorem reserved_slot_unique :
    (∀ st, Reachable st → AtMostOneActive st) ∧
    ∀ op st, AtMostOneActive st → AtMostOneActive (applyOp op st) := by
  refine ⟨?_, applyOp_atMostOne⟩
  intro st hst
  induction hst with
  | init => intro d t; simp [initState, activeCount]
  | step op hr ih => exact applyOp_atMostOne op _ ih

/-- Witness for C1: the invariant evaluated after one concrete booking. -/
theorem reserved_slot_unique_witness :
    activeCount "2026-01-05" "10:00"
      (applyOp
        (.reserveOp ⟨"2026-01-05", "10:00", "a", "p", "m", none⟩ "t" "r1")
        initState).rows ≤ 1 :=
  reserved_slot_unique.1 _
    (Reachable.step _ Reachable.init) "2026-01-05" "10:00"

/-- C3: for every date, `get_availability` returns one entry per catalog
slot, in catalog order, whose status is `holiday` when the date/slot is
closed, else `reserved` when an active reservation exists for the pair,
else `available` — i.e. it agrees pointwise with `slotStatus`, the status
function as §4.4 of the spec words it. -/
theorem availability_catalog_order (date : String) (st : State) :
    get_availability date st =
      TIME_SLOTS.map (fun t => (t, slotStatus date t st)) ∧
    ∀ e ∈ get_availability date st,
      e.2 = "holiday" ∨ e.2 = "reserved" ∨ e.2 = "available" := by
  have hmain : get_availability date st =
      TIME_SLOTS.map fun t => (t, slotStatus date t st) := by
    by_cases h : date ∈ st.holidays
    · rw [get_availability, if_pos h]
      apply List.map_congr_left
      intro t _
      simp [slotStatus, isClosed, h]
    · rw [get_availability, if_neg h]
      apply List.map_congr_left
      intro t _
      have hmem := mem_reservedTimes date t st.rows
      simp only [slotStatus, isClosed, h, decide_False, Bool.false_eq_true,
        if_false]
      by_cases hf : findActive date t st.rows = true
      · simp [hf, hmem.mpr hf]
      · have : t ∉ reservedTimes date st.rows := fun hin => hf (hmem.mp hin)
        simp [this, hf]
  refine ⟨hmain, ?_⟩
  intro e he
  rw [hmain] at he
  obtain ⟨t, -, rfl⟩ := List.mem_map.mp he
  unfold slotStatus
  split
  · exact Or.inl rfl
  · split
    · exact Or.inr (Or.inl rfl)
    · exact Or.inr (Or.inr rfl)

/-- Witness for C3 at a concrete date and state. -/
theorem availability_catalog_order_witness :
    get_availability "2026-01-05" initState =
      TIME_SLOTS.map (fun t => (t, slotStatus "2026-01-05" t initState)) :=
  (availability_catalog_order "2026-01-05" initState).1

/-- C4: when a whole-day closure exists for the date, `get_availability`
reports every slot `holiday`, and this answer does not depend on the
reservation rows at all (the handler returns before the reservation file
is read); the availability request changes no state, so the reservation
records are left untouched. -/
theorem holiday_overrides_reserved (date : String) (st : State)
    (h : date ∈ st.holidays) :
    get_availability date st = TIME_SLOTS.map (fun t => (t, "holiday")) ∧
    (∀ rows, get_availability date { rows := rows, holidays := st.holidays } =
      TIME_SLOTS.map (fun t => (t, "holiday"))) ∧
    applyOp (.availabilityOp date) st = st := by
  refine ⟨?_, fun rows => ?_, rfl⟩ <;> simp [get_availability, h]

/-- Witness for C4: a reserved slot reports `holiday` once the day closes. -/
theorem holiday_overrides_reserved_witness :
    get_availability "2026-01-05"
      { rows := [newRow ⟨"2026-01-05", "10:00", "a", "p", "m", none⟩ "t" "r1"],
        holidays := ["2026-01-05"] } =
      TIME_SLOTS.map (fun t => (t, "holiday")) :=
  (holiday_overrides_reserved "2026-01-05"
    { rows := [newRow ⟨"2026-01-05", "10:00", "a", "p", "m", none⟩ "t" "r1"],
      holidays := ["2026-01-05"] } (by simp)).1

/-- Counterexample for C5: the closure registry of the code has no slot
granularity (`HolidayAdd` carries only `date`), so the closest executable
reading of the claim's scenario `AddClosure(D, "10:00")` is the add-holiday
call with date `D` (an extra slot field in the request body is silently
dropped by the request model).  Afterwards slot `"11:00"` of `D` does not
remain available — it reports `holiday` — and booking it is rejected with
`Closed` rather than succeeding. -/
theorem slot_closure_counterexample :
    (get_availability "2026-01-05" (add_holiday "2026-01-05" initState).2).get? 1 =
      some ("11:00", "holiday") ∧
    (get_availability "2026-01-05" (add_holiday "2026-01-05" initState).2).get? 1 ≠
      some ("11:00", "available") ∧
    (reserve ⟨"2026-01-05", "11:00", "bob", "090", "cut", none⟩ "t" "r2"
      (add_holiday "2026-01-05" initState).2).1 = .closed := by
  decide

/-- C5 as amended: closures exist only at whole-day granularity.
`add_holiday` accepts a date alone; `isClosed date slot` ignores the slot
and is true exactly when a whole-day entry exists for the date; after a
successful `add_holiday D`, every slot of `D` (not just one) reports
`holiday` and booking any catalog slot on `D` fails with `Closed`. -/
theorem closures_whole_day_only (date : String) (st : State)
    (h : date ∉ st.holidays) :
    (add_holiday date st).1 = .ok ∧
    (∀ s1 s2, isClosed date s1 (add_holiday date st).2 =
      isClosed date s2 (add_holiday date st).2) ∧
    (∀ s, isClosed date s (add_holiday date st).2 = true) ∧
    get_availability date (add_holiday date st).2 =
      TIME_SLOTS.map (fun t => (t, "holiday")) ∧
    ∀ q now rid, q.date = date → q.time ∈ TIME_SLOTS →
      (reserve q now rid (add_holiday date st).2).1 = .closed := by
  have hst2 : (add_holiday date st).2 =
      { st with holidays := st.holidays ++ [date] } := by
    simp [add_holiday, h]
  have hmem : date ∈ (add_holiday date st).2.holidays := by
    rw [hst2]; simp
  refine ⟨by simp [add_holiday, h], fun s1 s2 => rfl, fun s => ?_, ?_, ?_⟩
  · simp [isClosed, hmem]
  · simp [get_availability, hmem]
  · intro q now rid hd ht
    rw [reserve_closed q now rid _ ht (hd ▸ hmem)]

/-- Witness for C5 as amended: booking a different slot on the closed day
is rejected with `Closed`. -/
theorem closures_whole_day_only_witness :
    (reserve ⟨"2026-01-05", "11:00", "bob", "090", "cut", none⟩ "t" "r2"
      (add_holiday "2026-01-05" initState).2).1 = .closed :=
  (closures_whole_day_only "2026-01-05" initState (by simp [initState])).2.2.2.2
    ⟨"2026-01-05", "11:00", "bob", "090", "cut", none⟩ "t" "r2" rfl (by decide)

/-- C6: `reserve` validates in the fixed short-circuit order invalid slot,
then closed date, then conflict, the first failing check winning; every
failure leaves the store unchanged; when all checks pass exactly one new
record is appended, carrying the supplied fresh id and status `reserved`,
and a fresh id keeps the stored ids duplicate-free. -/
theorem reserve_validation_order (q : ReserveReq) (now rid : String)
    (st : State) :
    (q.time ∉ TIME_SLOTS → reserve q now rid st = (.invalidSlot, st)) ∧
    (q.time ∈ TIME_SLOTS → q.date ∈ st.holidays →
      reserve q now rid st = (.closed, st)) ∧
    (q.time ∈ TIME_SLOTS → q.date ∉ st.holidays →
      findActive q.date q.time st.rows = true →
      reserve q now rid st = (.conflict, st)) ∧
    (q.time ∈ TIME_SLOTS → q.date ∉ st.holidays →
      findActive q.date q.time st.rows = false →
      reserve q now rid st =
        (.ok rid, { st with rows := st.rows ++ [newRow q now rid] }) ∧
      (newRow q now rid).status = "reserved" ∧ (newRow q now rid).id = rid) ∧
    (rid ∉ st.rows.map Row.id → (st.rows.map Row.id).Nodup →
      ((st.rows ++ [newRow q now rid]).map Row.id).Nodup) := by
  refine ⟨reserve_invalid q now rid st,
    reserve_closed q now rid st,
    reserve_conflict q now rid st,
    fun h1 h2 h3 => ⟨reserve_success q now rid st h1 h2 h3, rfl, rfl⟩,
    fun hfresh hnd => ?_⟩
  rw [List.map_append]
  rw [List.nodup_append]
  refine ⟨hnd, by simp, ?_⟩
  simp only [newRow, List.map_cons, List.map_nil]
  intro x hx hmem
  simp only [List.mem_singleton] at hmem
  exact hfresh (hmem ▸ hx)

/-- Witness for C6: the success case at the empty deployment state. -/
theorem reserve_validation_order_witness :
    (reserve ⟨"2026-01-05", "10:00", "a", "p", "m", none⟩ "t" "r1"
      initState).1 = .ok "r1" := by
  have h := (reserve_validation_order
    ⟨"2026-01-05", "10:00", "a", "p", "m", none⟩ "t" "r1"
    initState).2.2.2.1 (by decide) (by simp [initState]) (by decide)
  rw [h.1]

/-- C7: `cancel` answers `notFound` when no row carries the id, answers
`alreadyCancelled` when the first row carrying the id is already cancelled
— the store unchanged in both failure cases — and otherwise flips that
row's status to `cancelled` and succeeds. -/
theorem cancel_outcomes (rid : String) (st : State) :
    ((∀ x ∈ st.rows, x.id ≠ rid) → cancel rid st = (.notFound, st)) ∧
    ∀ l1 r l2, st.rows = l1 ++ r :: l2 → (∀ x ∈ l1, x.id ≠ rid) →
      r.id = rid →
      (r.status = "cancelled" → cancel rid st = (.alreadyCancelled, st)) ∧
      (r.status ≠ "cancelled" →
        cancel rid st =
          (.ok,
            { st with rows := l1 ++ { r with status := "cancelled" } :: l2 })) :=
  ⟨cancel_notFound rid st,
   fun l1 r l2 hs hl1 hr =>
     ⟨fun hc => cancel_already rid st l1 r l2 hs hl1 hr hc,
      fun hc => cancel_success rid st l1 r l2 hs hl1 hr hc⟩⟩

/-- Witness for C7: re-cancelling an already-cancelled reservation. -/
theorem cancel_outcomes_witness :
    cancel "x"
      ({ rows := [⟨"x", "d", "10:00", "n", "p", "m", "", "c", "cancelled"⟩],
         holidays := [] } : State) =
      (.alreadyCancelled,
        { rows := [⟨"x", "d", "10:00", "n", "p", "m", "", "c", "cancelled"⟩],
          holidays := [] }) :=
  ((cancel_outcomes "x"
    { rows := [⟨"x", "d", "10:00", "n", "p", "m", "", "c", "cancelled"⟩],
      holidays := [] }).2
    [] ⟨"x", "d", "10:00", "n", "p", "m", "", "c", "cancelled"⟩ []
    rfl (by simp) rfl).1 rfl

/-- C8: after a successful booking of `(date, slot)` with a fresh id and a
successful cancellation of that id, the slot's resolved status for that
date is `available` again (the day was not closed, or the booking could
not have succeeded), and booking the same `(date, slot)` succeeds. -/
theorem cancel_restores_availability (q : ReserveReq) (now rid : String)
    (st : State) (hfresh : ∀ x ∈ st.rows, x.id ≠ rid)
    (hok : (reserve q now rid st).1 = .ok rid) :
    (cancel rid (reserve q now rid st).2).1 = .ok ∧
    slotStatus q.date q.time (cancel rid (reserve q now rid st).2).2 =
      "available" ∧
    ∀ now2 rid2,
      (reserve q now2 rid2 (cancel rid (reserve q now rid st).2).2).1 =
        .ok rid2 := by
  obtain ⟨h1, h2, h3, -⟩ := reserve_ok_inv q now rid st rid hok
  have hres := reserve_success q now rid st h1 h2 h3
  have hrows1 : (reserve q now rid st).2.rows =
      st.rows ++ newRow q now rid :: [] := by rw [hres]
  have hcanc := cancel_success rid (reserve q now rid st).2 st.rows
    (newRow q now rid) [] hrows1 hfresh rfl (by simp [newRow])
  have hrows2 : (cancel rid (reserve q now rid st).2).2.rows =
      st.rows ++ ({ newRow q now rid with status := "cancelled" } :: []) := by
    rw [hcanc]
  have hhol2 : (cancel rid (reserve q now rid st).2).2.holidays =
      st.holidays := by
    rw [cancel_holidays, reserve_holidays]
  have h3' : st.rows.any (isActiveFor q.date q.time) = false := h3
  have hfa : findActive q.date q.time
      (cancel rid (reserve q now rid st).2).2.rows = false := by
    rw [hrows2]
    simp [findActive, List.any_append, h3',
      isActiveFor_cancelled q.date q.time (newRow q now rid)]
  have hncl : isClosed q.date q.time (cancel rid (reserve q now rid st).2).2 =
      false := by
    simp [isClosed, hhol2, h2]
  refine ⟨by rw [hcanc], by simp [slotStatus, hncl, hfa], ?_⟩
  intro now2 rid2
  have h2' : q.date ∉ (cancel rid (reserve q now rid st).2).2.holidays := by
    rw [hhol2]; exact h2
  rw [reserve_success q now2 rid2 _ h1 h2' hfa]

/-- Witness for C8: book, cancel, and the cancellation reports ok. -/
theorem cancel_restores_availability_witness :
    (cancel "r1"
      (reserve ⟨"2026-01-05", "10:00", "a", "p", "m", none⟩ "t" "r1"
        initState).2).1 = .ok :=
  (cancel_restores_availability ⟨"2026-01-05", "10:00", "a", "p", "m", none⟩
    "t" "r1" initState (by simp [initState]) (by decide)).1

/-- C10: a successful `cancel` rewrites only the status of the first row
whose id matches; that row keeps every other field, the rows before and
after it are returned verbatim, and the holiday registry is untouched. -/
theorem cancel_frame (rid : String) (st : State) (l1 : List Row) (r : Row)
    (l2 : List Row) (hsplit : st.rows = l1 ++ r :: l2)
    (hl1 : ∀ x ∈ l1, x.id ≠ rid) (hr : r.id = rid)
    (hs : r.status ≠ "cancelled") :
    cancel rid st =
      (.ok, { rows := l1 ++ { r with status := "cancelled" } :: l2,
              holidays := st.holidays }) ∧
    ({ r with status := "cancelled" }).id = r.id ∧
    ({ r with status := "cancelled" }).date = r.date ∧
    ({ r with status := "cancelled" }).time = r.time ∧
    ({ r with status := "cancelled" }).name = r.name ∧
    ({ r with status := "cancelled" }).phone = r.phone ∧
    ({ r with status := "cancelled" }).menu = r.menu ∧
    ({ r with status := "cancelled" }).memo = r.memo ∧
    ({ r with status := "cancelled" }).created_at = r.created_at ∧
    ({ r with status := "cancelled" }).status = "cancelled" :=
  ⟨cancel_success rid st l1 r l2 hsplit hl1 hr hs,
   rfl, rfl, rfl, rfl, rfl, rfl, rfl, rfl, rfl⟩

/-- Witness for C10: cancelling the only row leaves the holidays and every
field but the status as they were. -/
theorem cancel_frame_witness :
    cancel "x"
      ({ rows := [⟨"x", "d", "10:00", "n", "p", "m", "", "c", "reserved"⟩],
         holidays := ["hd"] } : State) =
      (.ok,
        { rows := [⟨"x", "d", "10:00", "n", "p", "m", "", "c", "cancelled"⟩],
          holidays := ["hd"] }) :=
  (cancel_frame "x"
    { rows := [⟨"x", "d", "10:00", "n", "p", "m", "", "c", "reserved"⟩],
      holidays := ["hd"] }
    [] ⟨"x", "d", "10:00", "n", "p", "m", "", "c", "reserved"⟩ []
    rfl (by simp) rfl (by decide)).1

theorem statusStep_goal_of_eq (st : State) (rows2 : List Row)
    (h : rows2 = st.rows)
    (hst : ∀ r ∈ st.rows, r.status = "reserved" ∨ r.status = "cancelled") :
    ∃ updated ext, rows2 = updated ++ ext ∧
      List.Forall₂ statusStep st.rows updated ∧
      (∀ r ∈ ext, r.status = "reserved") ∧
      ∀ r ∈ rows2, r.status = "reserved" ∨ r.status = "cancelled" := by
  subst h
  exact ⟨st.rows, [], by simp,
    List.forall₂_same.mpr fun x _ => statusStep_refl x, by simp, hst⟩

/-- C9: a status only moves from `reserved` to `cancelled` and never
reverts.  Every operation maps the old row list to an updated copy plus
appended rows: each old row keeps its id and either keeps its status or
flips from `reserved` to `cancelled` (so no row is deleted), every
appended row starts as `reserved`, and all statuses stay in the two-value
set. -/
theorem status_one_directional (op : Op) (st : State)
    (hst : ∀ r ∈ st.rows, r.status = "reserved" ∨ r.status = "cancelled") :
    ∃ updated ext, (applyOp op st).rows = updated ++ ext ∧
      List.Forall₂ statusStep st.rows updated ∧
      (∀ r ∈ ext, r.status = "reserved") ∧
      ∀ r ∈ (applyOp op st).rows,
        r.status = "reserved" ∨ r.status = "cancelled" := by
  cases op with
  | reserveOp q now rid =>
    by_cases h1 : q.time ∈ TIME_SLOTS
    · by_cases h2 : q.date ∈ st.holidays
      · exact statusStep_goal_of_eq st _
          (by simp [applyOp, reserve_closed q now rid st h1 h2]) hst
      · by_cases h3 : findActive q.date q.time st.rows = true
        · exact statusStep_goal_of_eq st _
            (by simp [applyOp, reserve_conflict q now rid st h1 h2 h3]) hst
        · have h3' : findActive q.date q.time st.rows = false := by
            simpa using h3
          have hres := reserve_success q now rid st h1 h2 h3'
          have hrows : (applyOp (Op.reserveOp q now rid) st).rows =
              st.rows ++ [newRow q now rid] := by simp [applyOp, hres]
          refine ⟨st.rows, [newRow q now rid], hrows,
            List.forall₂_same.mpr fun x _ => statusStep_refl x, ?_, ?_⟩
          · intro r hr
            simp only [List.mem_singleton] at hr
            rw [hr]; rfl
          · intro r hr
            rw [hrows] at hr
            rcases List.mem_append.mp hr with hr | hr
            · exact hst r hr
            · simp only [List.mem_singleton] at hr
              rw [hr]; exact Or.inl rfl
    · exact statusStep_goal_of_eq st _
        (by simp [applyOp, reserve_invalid q now rid st h1]) hst
  | cancelOp rid =>
    cases hscan : cancelScan rid st.rows with
    | notFound =>
      exact statusStep_goal_of_eq st _ (by simp [applyOp, cancel, hscan]) hst
    | already =>
      exact statusStep_goal_of_eq st _ (by simp [applyOp, cancel, hscan]) hst
    | done rows' =>
      obtain ⟨l1, r, l2, hEq, hfst, hid, hsne, hrw⟩ :=
        cancelScan_done_shape rid st.rows rows' hscan
      have hrows : (applyOp (Op.cancelOp rid) st).rows = rows' := by
        simp [applyOp, cancel, hscan]
      have hrst : r.status = "reserved" := by
        rcases hst r (by rw [hEq]; simp) with h | h
        · exact h
        · exact absurd h hsne
      have hstep : statusStep r ({ r with status := "cancelled" }) :=
        ⟨rfl, Or.inr ⟨hrst, rfl⟩⟩
      refine ⟨rows', [], by simp [hrows], ?_, by simp, ?_⟩
      · rw [hEq, hrw]
        exact List.rel_append
          (List.forall₂_same.mpr fun x _ => statusStep_refl x)
          (List.Forall₂.cons hstep
            (List.forall₂_same.mpr fun x _ => statusStep_refl x))
      · intro x hx
        rw [hrows, hrw] at hx
        rcases List.mem_append.mp hx with hx | hx
        · exact hst x (by rw [hEq]; exact List.mem_append.mpr (Or.inl hx))
        · rcases List.mem_cons.mp hx with rfl | hx
          · exact Or.inr rfl
          · exact hst x (by
              rw [hEq]
              exact List.mem_append.mpr
                (Or.inr (List.mem_cons.mpr (Or.inr hx))))
  | addHolidayOp dd =>
    exact statusStep_goal_of_eq st _ (by simp [applyOp, add_holiday_rows]) hst
  | removeHolidayOp dd =>
    exact statusStep_goal_of_eq st _
      (by simp [applyOp, remove_holiday_rows]) hst
  | availabilityOp dd => exact statusStep_goal_of_eq st _ rfl hst
  | listOp dd => exact statusStep_goal_of_eq st _ rfl hst

/-- Witness for C9: a cancellation deletes no row. -/
theorem status_one_directional_witness :
    ({ rows := [⟨"x", "d", "10:00", "n", "p", "m", "", "c", "reserved"⟩],
       holidays := [] } : State).rows.length ≤
      (applyOp (.cancelOp "x")
        { rows := [⟨"x", "d", "10:00", "n", "p", "m", "", "c", "reserved"⟩],
          holidays := [] }).rows.length := by
  obtain ⟨u, e, happ, hf, -, -⟩ := status_one_directional (.cancelOp "x")
    { rows := [⟨"x", "d", "10:00", "n", "p", "m", "", "c", "reserved"⟩],
      holidays := [] } (by decide)
  rw [happ, List.length_append, hf.length_eq]
  omega

/-- C2 fails on the code: under the interleaving in which both `reserve`
handlers read the CSV files before either reaches `write_reservations`
(the handlers are synchronous and share the files with no lock), two calls
for the identical `(date, slot)` BOTH succeed — neither receives the
conflict error — and the second write replaces the file contents computed
by the first, so only one of the two acknowledged reservations survives. -/
theorem race_both_succeed :
    (raceBothRead ⟨"2026-01-05", "10:00", "alice", "090-1", "cut", none⟩
      ⟨"2026-01-05", "10:00", "bob", "090-2", "color", none⟩
      "t1" "r1" "t2" "r2" initState).1 = .ok "r1" ∧
    (raceBothRead ⟨"2026-01-05", "10:00", "alice", "090-1", "cut", none⟩
      ⟨"2026-01-05", "10:00", "bob", "090-2", "color", none⟩
      "t1" "r1" "t2" "r2" initState).2.1 = .ok "r2" ∧
    (raceBothRead ⟨"2026-01-05", "10:00", "alice", "090-1", "cut", none⟩
      ⟨"2026-01-05", "10:00", "bob", "090-2", "color", none⟩
      "t1" "r1" "t2" "r2" initState).2.2.rows =
      [newRow ⟨"2026-01-05", "10:00", "bob", "090-2", "color", none⟩
        "t2" "r2"] := by
  decide

end Booking
